import Mathlib

/-!
Verification of the escrow client logic of the monadtool repository.

The definitions below are a shallow embedding of the TypeScript escrow
coordinator (src/utils/escrow.ts, re-exported in the API bundle), the
escrow modal gating (src/components/EscrowModal.tsx) and the messaging
helpers (src/utils/escrowMessages.ts).  Machine integers are modelled as
Nat/Int, addresses and identifiers as Lean strings, the implicit wall
clock (Date.now) as an explicit `now : Nat` parameter (seconds), and
asynchronous effects as explicit outcome parameters / traces.
-/

/-- Escrow lifecycle states, matching the EscrowState enum of the client
(which mirrors the on-chain contract enum). -/
inductive EscrowState where
  | CREATED
  | FUNDED
  | NFT_DEPOSITED
  | ACTIVE
  | COMPLETED
  | CANCELLED
  | DISPUTED
deriving DecidableEq, Repr

/-- The client-side Escrow record (interface Escrow in src/utils/escrow.ts).
Addresses and the conversation id are strings; bigint fields are Nat. -/
structure Escrow where
  id : Nat
  seller : String
  buyer : String
  nftContract : String
  tokenId : Nat
  price : Nat
  deadline : Nat
  state : EscrowState
  createdAt : Nat
  disputeDeadline : Nat
  ipfsMetadata : String
  sellerAgreed : Bool
  buyerAgreed : Bool
  xmtpConversationId : String
deriving DecidableEq, Repr

/-- Model of JavaScript String.prototype.toLowerCase, restricted to ASCII
(hex addresses only contain ASCII): lower-case every character. -/
def toLowerCase (s : String) : String :=
  String.mk (s.data.map Char.toLower)

/-- isEscrowExpired from src/utils/escrow.ts: Date.now() / 1000 > deadline,
with the current time passed explicitly as `now` (seconds). -/
def isEscrowExpired (now : Nat) (escrow : Escrow) : Bool :=
  decide (escrow.deadline < now)

/-- canUserFundEscrow from src/utils/escrow.ts. -/
def canUserFundEscrow (now : Nat) (escrow : Escrow) (userAddress : String) : Bool :=
  escrow.state == EscrowState.CREATED &&
  toLowerCase escrow.buyer == toLowerCase userAddress &&
  !isEscrowExpired now escrow

/-- canUserDepositNFT from src/utils/escrow.ts. -/
def canUserDepositNFT (now : Nat) (escrow : Escrow) (userAddress : String) : Bool :=
  (escrow.state == EscrowState.CREATED || escrow.state == EscrowState.FUNDED) &&
  toLowerCase escrow.seller == toLowerCase userAddress &&
  !isEscrowExpired now escrow

/-- canUserCompleteEscrow from src/utils/escrow.ts. -/
def canUserCompleteEscrow (now : Nat) (escrow : Escrow) (userAddress : String) : Bool :=
  escrow.state == EscrowState.ACTIVE &&
  (toLowerCase escrow.buyer == toLowerCase userAddress ||
   toLowerCase escrow.seller == toLowerCase userAddress)

/-- canUserCancelEscrow from src/utils/escrow.ts: a party may cancel unless
the escrow is already completed, cancelled or disputed. -/
def canUserCancelEscrow (now : Nat) (escrow : Escrow) (userAddress : String) : Bool :=
  let isParty := toLowerCase escrow.buyer == toLowerCase userAddress ||
                 toLowerCase escrow.seller == toLowerCase userAddress
  if escrow.state == EscrowState.COMPLETED ||
     escrow.state == EscrowState.CANCELLED ||
     escrow.state == EscrowState.DISPUTED then
    false
  else
    isParty

/-- canUserRaiseDispute from src/utils/escrow.ts. -/
def canUserRaiseDispute (now : Nat) (escrow : Escrow) (userAddress : String) : Bool :=
  (escrow.state == EscrowState.ACTIVE ||
   escrow.state == EscrowState.FUNDED ||
   escrow.state == EscrowState.NFT_DEPOSITED) &&
  (toLowerCase escrow.buyer == toLowerCase userAddress ||
   toLowerCase escrow.seller == toLowerCase userAddress) &&
  !isEscrowExpired now escrow

/-- The cancel-expired gating of ManageEscrowView in
src/components/EscrowModal.tsx: the action block is rendered only for a
party (userRole non-null, seller checked first), and the cancel-expired
button when additionally the escrow is expired and its state is neither
CANCELLED nor COMPLETED.  The dispute deadline is never consulted. -/
def canUserCancelExpired (now : Nat) (escrow : Escrow) (userAddress : String) : Bool :=
  (toLowerCase escrow.seller == toLowerCase userAddress ||
   toLowerCase escrow.buyer == toLowerCase userAddress) &&
  isEscrowExpired now escrow &&
  !(escrow.state == EscrowState.CANCELLED) &&
  !(escrow.state == EscrowState.COMPLETED)

/-- Modelled from the spec: whether the dispute deadline of the escrow has
passed (no client code computes this; it appears only in the lawful graph
of section 4.1 for the cancel-expired action). -/
def isDisputeExpired (now : Nat) (escrow : Escrow) : Bool :=
  decide (escrow.disputeDeadline < now)

/-- getNextAction from src/utils/escrow.ts, a direct translation of the
two switch statements (terminal states first, then expiry, then per-state
per-role guidance, defaulting to no action required). -/
def getNextAction (now : Nat) (escrow : Escrow) (userAddress : String) : String :=
  let isExpired := isEscrowExpired now escrow
  let userIsBuyer := toLowerCase escrow.buyer == toLowerCase userAddress
  let userIsSeller := toLowerCase escrow.seller == toLowerCase userAddress
  match escrow.state with
  | EscrowState.COMPLETED => "Escrow completed successfully"
  | EscrowState.CANCELLED => "Escrow was cancelled"
  | EscrowState.DISPUTED =>
    if isExpired then "Dispute expired - can be auto-resolved"
    else "Escrow is under dispute - awaiting resolution"
  | s =>
    if isExpired then "Escrow expired - funds can be refunded"
    else
      match s with
      | EscrowState.CREATED =>
        if userIsBuyer then "Deposit payment to continue"
        else if userIsSeller then "Waiting for buyer to deposit payment"
        else "No action required"
      | EscrowState.FUNDED =>
        if userIsSeller then "Deposit your NFT to activate escrow"
        else "Waiting for seller to deposit NFT"
      | EscrowState.NFT_DEPOSITED =>
        if userIsBuyer then "Deposit payment to activate escrow"
        else "Waiting for buyer to deposit payment"
      | EscrowState.ACTIVE =>
        if userIsBuyer then "Complete escrow to receive NFT"
        else "Waiting for buyer to complete or auto-complete"
      | _ => "No action required"

/-- The two caller roles of the lawful transition graph of section 4.1. -/
inductive Role where
  | buyer
  | seller
deriving DecidableEq, Repr

/-- The six client-gated actions of the lawful transition graph. -/
inductive EscrowAction where
  | fund
  | depositNFT
  | complete
  | cancel
  | raiseDispute
  | cancelExpired
deriving DecidableEq, Repr

/-- Whether `userAddress` holds the given role on the escrow (addresses
compared lower-cased, as everywhere in the client). -/
def roleHolds (escrow : Escrow) (userAddress : String) : Role → Bool
  | Role.buyer => toLowerCase escrow.buyer == toLowerCase userAddress
  | Role.seller => toLowerCase escrow.seller == toLowerCase userAddress

/-- Modelled from the spec: the lawful transition table of section 4.1,
as a function of state, caller role, main-deadline expiry and
dispute-deadline expiry. -/
def lawfulAction (s : EscrowState) (r : Role) (expired disputeExpired : Bool) :
    EscrowAction → Bool
  | EscrowAction.fund =>
    r == Role.buyer && s == EscrowState.CREATED && !expired
  | EscrowAction.depositNFT =>
    r == Role.seller && (s == EscrowState.CREATED || s == EscrowState.FUNDED) && !expired
  | EscrowAction.complete =>
    s == EscrowState.ACTIVE
  | EscrowAction.cancel =>
    !(s == EscrowState.COMPLETED || s == EscrowState.CANCELLED || s == EscrowState.DISPUTED)
  | EscrowAction.raiseDispute =>
    (s == EscrowState.FUNDED || s == EscrowState.NFT_DEPOSITED || s == EscrowState.ACTIVE) &&
    !expired
  | EscrowAction.cancelExpired =>
    (expired &&
     !(s == EscrowState.COMPLETED || s == EscrowState.CANCELLED || s == EscrowState.DISPUTED)) ||
    (s == EscrowState.DISPUTED && disputeExpired)

/-- A transition is lawful for a concrete user when the user holds a role
for which the section 4.1 table allows it. -/
def lawfulFor (escrow : Escrow) (userAddress : String) (expired disputeExpired : Bool)
    (a : EscrowAction) : Bool :=
  (roleHolds escrow userAddress Role.buyer &&
   lawfulAction escrow.state Role.buyer expired disputeExpired a) ||
  (roleHolds escrow userAddress Role.seller &&
   lawfulAction escrow.state Role.seller expired disputeExpired a)

/-- The amended table: identical to `lawfulAction` except that the
cancel-expired action is gated by the main deadline alone, in every
non-terminal state including DISPUTED (this is what the modal implements;
the dispute deadline is never consulted by the client). -/
def lawfulActionAmended (s : EscrowState) (r : Role) (expired disputeExpired : Bool)
    (a : EscrowAction) : Bool :=
  match a with
  | EscrowAction.cancelExpired =>
    expired && !(s == EscrowState.CANCELLED) && !(s == EscrowState.COMPLETED)
  | _ => lawfulAction s r expired disputeExpired a

/-- Per-user version of the amended table. -/
def lawfulForAmended (escrow : Escrow) (userAddress : String) (expired disputeExpired : Bool)
    (a : EscrowAction) : Bool :=
  (roleHolds escrow userAddress Role.buyer &&
   lawfulActionAmended escrow.state Role.buyer expired disputeExpired a) ||
  (roleHolds escrow userAddress Role.seller &&
   lawfulActionAmended escrow.state Role.seller expired disputeExpired a)

/-- Model of the browser TextEncoder for one Unicode code point: its UTF-8
bytes (as Nat).  Lean chars are exactly the scalar values, so this agrees
with TextEncoder on every Lean string. -/
def utf8EncodeCodepoint (n : Nat) : List Nat :=
  if n < 0x80 then [n]
  else if n < 0x800 then [0xC0 + n / 0x40, 0x80 + n % 0x40]
  else if n < 0x10000 then
    [0xE0 + n / 0x1000, 0x80 + n / 0x40 % 0x40, 0x80 + n % 0x40]
  else
    [0xF0 + n / 0x40000, 0x80 + n / 0x1000 % 0x40, 0x80 + n / 0x40 % 0x40, 0x80 + n % 0x40]

/-- UTF-8 byte sequence of a char list (TextEncoder model). -/
def charsUtf8 (l : List Char) : List Nat :=
  l.bind (fun c => utf8EncodeCodepoint c.toNat)

/-- UTF-8 byte sequence of a string, as produced by
`new TextEncoder().encode(...)` in conversationIdToBytes32. -/
def utf8Bytes (s : String) : List Nat :=
  charsUtf8 s.data

/-- The 32-byte buffer built in conversationIdToBytes32: the first
min(length, 32) bytes of the encoded id, zero-padded to 32 bytes. -/
def padTruncate32 (bytes : List Nat) : List Nat :=
  bytes.take 32 ++ List.replicate (32 - bytes.length) 0

/-- One lower-case hex digit (JavaScript Number.prototype.toString(16)). -/
def hexDigit (n : Nat) : Char :=
  if n < 10 then Char.ofNat (48 + n) else Char.ofNat (87 + n)

/-- Two-digit lower-case hex rendering of one byte
(b.toString(16).padStart(2, with zero)). -/
def byteToHex (b : Nat) : List Char :=
  [hexDigit (b / 16), hexDigit (b % 16)]

/-- conversationIdToBytes32 from src/utils/escrow.ts: UTF-8 encode, pad or
truncate to 32 bytes, and render as a hex string beginning with 0x. -/
def conversationIdToBytes32 (conversationId : String) : String :=
  String.mk ('0' :: 'x' :: (padTruncate32 (utf8Bytes conversationId)).bind byteToHex)

/-- Trailing zero bytes removed (used to state recoverability of the
original bytes from the zero-padded buffer). -/
def stripTrailingZeros (l : List Nat) : List Nat :=
  (l.reverse.dropWhile (fun b => b == 0)).reverse

/-- getConversationEscrowNumber from src/utils/escrowMessages.ts: the
conversation-specific escrow display number.  The implementation always
returns the constant string for position one. -/
def getConversationEscrowNumber (conversationId : String) (escrowId : Nat) : String :=
  "#1"

/-- Stable insertion of an escrow into a list sorted by ascending id
(model of the comparator (a, b) => Number(a.id) - Number(b.id)). -/
def insertById (e : Escrow) : List Escrow → List Escrow
  | [] => [e]
  | f :: rest => if e.id ≤ f.id then e :: f :: rest else f :: insertById e rest

/-- The sorted escrow list built by loadAllConversationEscrows in
src/components/EscrowModal.tsx (ascending id). -/
def sortEscrowsById (l : List Escrow) : List Escrow :=
  l.foldr insertById []

/-- The display number the modal renders for an escrow: its index in the
ascending-id sorted list, plus one. -/
def escrowDisplayNumber (escrows : List Escrow) (escrowId : Nat) : Nat :=
  (sortEscrowsById escrows).findIdx (fun e => e.id == escrowId) + 1

/-- Outcome of one underlying readContract call for getEscrow: a decoded
record, a contract revert (also the missing-record case), or a
transport/network failure.  Both failure kinds reject the promise. -/
inductive ReadOutcome where
  | ok (escrow : Escrow)
  | revert (msg : String)
  | transportFailure (msg : String)
deriving DecidableEq, Repr

/-- The wagmi readContract call made by getEscrow: it throws (rejects)
both on revert and on transport failure. -/
def readContractGetEscrow : ReadOutcome → Except String Escrow
  | ReadOutcome.ok e => Except.ok e
  | ReadOutcome.revert m => Except.error m
  | ReadOutcome.transportFailure m => Except.error m

/-- getEscrow from src/utils/escrow.ts: the read is wrapped in try/catch;
every thrown error is logged and converted to null.  The Except layer is
the promise rejection channel of the translated function. -/
def getEscrow (r : ReadOutcome) : Except String (Option Escrow) :=
  match readContractGetEscrow r with
  | Except.ok e => Except.ok (some e)
  | Except.error _ => Except.ok none

/-- One polling attempt inside waitForEscrowStateChange: the loop calls
getEscrow under its own try/catch, so a thrown read would count as no
observation (getEscrow in fact never throws). -/
def observeAttempt (r : ReadOutcome) : Option Escrow :=
  match getEscrow r with
  | Except.ok o => o
  | Except.error _ => none

/-- Whether the attempt with index `i` observes the expected state
(the loop condition escrow && escrow.state === expectedState). -/
def observedExpected (reads : Nat → ReadOutcome) (expectedState : EscrowState) (i : Nat) :
    Bool :=
  match observeAttempt (reads i) with
  | some escrow => escrow.state == expectedState
  | none => false

/-- The polling loop of waitForEscrowStateChange: starting at attempt
index `attempt` with `fuel` iterations left, return the result together
with the number of reads performed. -/
def waitForEscrowStateChangeGo (reads : Nat → ReadOutcome) (expectedState : EscrowState) :
    Nat → Nat → Bool × Nat
  | _, 0 => (false, 0)
  | attempt, fuel + 1 =>
    if observedExpected reads expectedState attempt then (true, 1)
    else
      let r := waitForEscrowStateChangeGo reads expectedState (attempt + 1) fuel
      (r.1, r.2 + 1)

/-- waitForEscrowStateChange from src/utils/escrow.ts (defaults
maxAttempts = 10, delayMs = 2000).  The sequence of read outcomes for the
polled escrow id is passed as `reads`; the inter-attempt delay does not
affect the returned value.  The second component counts reads performed. -/
def waitForEscrowStateChange (reads : Nat → ReadOutcome) (expectedState : EscrowState)
    (maxAttempts : Nat) (delayMs : Nat) : Bool × Nat :=
  waitForEscrowStateChangeGo reads expectedState 0 maxAttempts

/-- waitAndRefresh from src/components/EscrowModal.tsx: await the
transaction receipt, poll for the expected state with budget 15 and delay
3000, and on exhaustion emit the warning toast; a thrown receipt wait is
caught and emits the pending-warning toast.  The returned value is the
optional warning toast; the Except layer (never used) is the rejection
channel, showing the coordinator never turns exhaustion into a thrown
error. -/
def waitAndRefresh (receiptOk : Bool) (reads : Nat → ReadOutcome)
    (expectedState : Option EscrowState) : Except String (Option String) :=
  if receiptOk then
    match expectedState with
    | some st =>
      if (waitForEscrowStateChange reads st 15 3000).1 then Except.ok none
      else
        Except.ok (some "Transaction completed but state may still be updating. Please refresh manually.")
    | none => Except.ok none
  else
    Except.ok (some "Transaction may still be pending. Please refresh manually.")

/-- The on-chain submissions depositNFT can make, in order. -/
inductive ChainEvent where
  | approveSubmitted
  | approveConfirmed
  | depositSubmitted
deriving DecidableEq, Repr

/-- depositNFT from src/utils/escrow.ts: submit the ERC-721 approve call,
await its receipt, then submit the deposit call; there is no try/catch, so
a throw at any step aborts the rest.  Each step is given by its outcome;
the trace records the effects that actually happened, in order. -/
def depositNFT (approveRes : Except String Nat) (receiptRes : Except String Unit)
    (depositRes : Except String Nat) : Except String Nat × List ChainEvent :=
  match approveRes with
  | Except.error e => (Except.error e, [])
  | Except.ok _ =>
    match receiptRes with
    | Except.error e => (Except.error e, [ChainEvent.approveSubmitted])
    | Except.ok _ =>
      match depositRes with
      | Except.error e =>
        (Except.error e, [ChainEvent.approveSubmitted, ChainEvent.approveConfirmed])
      | Except.ok h =>
        (Except.ok h,
         [ChainEvent.approveSubmitted, ChainEvent.approveConfirmed,
          ChainEvent.depositSubmitted])

/-- Numeric value of one decimal digit character. -/
def digitVal (c : Char) : Nat :=
  c.toNat - 48

/-- Value of a decimal digit string (JavaScript BigInt of a digit string;
the empty string evaluates to zero, leading zeros are ignored). -/
def digitsToNat (cs : List Char) : Nat :=
  cs.foldl (fun acc c => 10 * acc + digitVal c) 0

/-- Split a character list at every dot (JavaScript split). -/
def splitDot : List Char → List (List Char)
  | [] => [[]]
  | c :: rest =>
    let r := splitDot rest
    if c == '.' then [] :: r
    else
      match r with
      | [] => [[c]]
      | h :: t => (c :: h) :: t

/-- Trailing zero digits removed (the viem trim of the fraction part). -/
def stripTrailingZeroDigits (cs : List Char) : List Char :=
  (cs.reverse.dropWhile (fun c => c == '0')).reverse

/-- Sign application for the parsed value. -/
def intSign (neg : Bool) (n : Nat) : Int :=
  if neg then -(n : Int) else (n : Int)

/-- Model of viem parseEther = parseUnits(value, 18): optional minus sign,
integer and fraction digit parts separated by at most one dot; the
fraction is trimmed of trailing zeros then scaled to 18 decimals; a
fraction still longer than 18 digits is rounded half-up at the 18th digit
(viem rounds via JavaScript Number there; this model rounds exactly).
Input rejected by the viem format check is modelled as none. -/
def parseEther (value : String) : Option Int :=
  let signSplit : Bool × List Char :=
    match value.data with
    | [] => (false, [])
    | c :: rest => if c == '-' then (true, rest) else (false, c :: rest)
  let neg := signSplit.1
  match splitDot signSplit.2 with
  | [integer] =>
    if integer.all Char.isDigit then
      some (intSign neg (digitsToNat integer * 10 ^ 18))
    else none
  | [integer, fraction0] =>
    if integer.all Char.isDigit && fraction0.all Char.isDigit then
      let fraction := stripTrailingZeroDigits fraction0
      if fraction.length ≤ 18 then
        some (intSign neg
          (digitsToNat integer * 10 ^ 18 + digitsToNat fraction * 10 ^ (18 - fraction.length)))
      else
        let d := 10 ^ (fraction.length - 18)
        some (intSign neg (digitsToNat integer * 10 ^ 18 + (digitsToNat fraction + d / 2) / d))
    else none
  | _ => none

/-- Model of viem formatEther = formatUnits(value, 18): decimal rendering
padded to 18 fractional digits, trailing fractional zeros trimmed, the
integer part defaulting to a single zero digit. -/
def formatEther (value : Int) : String :=
  let neg := decide (value < 0)
  let display := (Nat.repr value.natAbs).data
  let padded := List.replicate (18 - display.length) '0' ++ display
  let integer := padded.take (padded.length - 18)
  let fraction := stripTrailingZeroDigits (padded.drop (padded.length - 18))
  String.mk
    ((if neg then ['-'] else []) ++
     (if integer.isEmpty then ['0'] else integer) ++
     (if fraction.isEmpty then [] else '.' :: fraction))

/-- formatPrice from src/utils/escrow.ts. -/
def formatPrice (priceWei : Int) : String :=
  formatEther priceWei

/-- parsePrice from src/utils/escrow.ts. -/
def parsePrice (priceEth : String) : Option Int :=
  parseEther priceEth

/-- Parameters of createEscrow in src/utils/escrow.ts. -/
structure CreateEscrowParams where
  seller : String
  buyer : String
  nftContract : String
  tokenId : Nat
  priceEth : String
  durationHours : Nat
  conversationId : String
  ipfsMetadata : Option String
deriving DecidableEq, Repr

/-- The argument tuple createEscrow submits to the contract. -/
structure CreateEscrowArgs where
  seller : String
  buyer : String
  nftContract : String
  tokenId : Nat
  price : Int
  duration : Nat
  xmtpConversationId : String
  ipfsMetadata : String
deriving DecidableEq, Repr

/-- createEscrow from src/utils/escrow.ts: parse the decimal price to the
wei base unit, convert the duration from hours to seconds, encode the
conversation id, and submit; a price rejected by the parser makes the
call throw (re-thrown by the catch block). -/
def createEscrow (params : CreateEscrowParams) : Except String CreateEscrowArgs :=
  match parsePrice params.priceEth with
  | none => Except.error "InvalidDecimalNumberError"
  | some price =>
    Except.ok
      { seller := params.seller
        buyer := params.buyer
        nftContract := params.nftContract
        tokenId := params.tokenId
        price := price
        duration := params.durationHours * 3600
        xmtpConversationId := conversationIdToBytes32 params.conversationId
        ipfsMetadata := params.ipfsMetadata.getD "" }

/-- The writeContract call raiseDispute submits. -/
structure RaiseDisputeCall where
  functionName : String
  escrowId : Nat
  reason : String
  value : Option Int
deriving DecidableEq, Repr

/-- raiseDispute from src/utils/escrow.ts: a writeContract call carrying
the fixed dispute fee parseEther of 0.01 as the attached value. -/
def raiseDispute (escrowId : Nat) (reason : String) : RaiseDisputeCall :=
  { functionName := "raiseDispute"
    escrowId := escrowId
    reason := reason
    value := parseEther "0.01" }

/-- C9: every raiseDispute call attaches exactly the fixed dispute fee
parseEther of 0.01, namely 10^16 base units, independent of the escrow id
and the reason string supplied. -/
theorem escrow_C9_fixed_dispute_fee (escrowId : Nat) (reason : String) :
    (raiseDispute escrowId reason).value = some ((10 : Int) ^ 16) ∧
    (raiseDispute escrowId reason).value = (raiseDispute 0 "").value := by
  constructor
  · show parseEther "0.01" = some ((10 : Int) ^ 16)
    decide
  · rfl

/-- C5 counterexample: a transport failure of the read does not propagate
to the caller; getEscrow absorbs it into the null result, refuting the
claim at this concrete input. -/
theorem escrow_C5_counterexample :
    ¬ ∃ e : String,
        getEscrow (ReadOutcome.transportFailure "ECONNRESET") = Except.error e := by
  rintro ⟨e, h⟩
  simp [getEscrow, readContractGetEscrow] at h

/-- C5 (amended): getEscrow never throws, and returns null exactly when
the underlying read threw, whether from a revert / missing record or from
a transport failure (the catch block does not distinguish them). -/
theorem escrow_C5_null_on_any_read_error (r : ReadOutcome) :
    (getEscrow r).isOk = true ∧
    (getEscrow r = Except.ok none ↔ (readContractGetEscrow r).isOk = false) := by
  cases r <;> simp [getEscrow, readContractGetEscrow, Except.isOk, Except.toBool]

/-- C5 witness: on a revert outcome getEscrow returns the null value
without throwing. -/
theorem escrow_C5_witness :
    (getEscrow (ReadOutcome.revert "execution reverted")).isOk = true ∧
    getEscrow (ReadOutcome.revert "execution reverted") = Except.ok none := by
  have h := escrow_C5_null_on_any_read_error (ReadOutcome.revert "execution reverted")
  exact ⟨h.1, h.2.mpr (by decide)⟩

/-- C7: the deposit call is submitted only in executions where the
approval was submitted and its receipt awaited first (the trace then is
exactly approve, confirm, deposit); if the approval submission or the
receipt wait throws, depositNFT aborts with that error and the deposit
call is never submitted. -/
theorem escrow_C7_approve_before_deposit (a : Except String Nat)
    (r : Except String Unit) (d : Except String Nat) :
    ((depositNFT a r d).2.contains ChainEvent.depositSubmitted = true →
      (depositNFT a r d).2 =
        [ChainEvent.approveSubmitted, ChainEvent.approveConfirmed,
         ChainEvent.depositSubmitted] ∧
      a.isOk = true ∧ r.isOk = true) ∧
    ((a.isOk = false ∨ r.isOk = false) →
      (depositNFT a r d).2.contains ChainEvent.depositSubmitted = false ∧
      (depositNFT a r d).1.isOk = false) := by
  cases a <;> cases r <;> cases d <;>
    simp [depositNFT, Except.isOk, Except.toBool, List.contains]

/-- C7 witness: when the approval submission throws (user rejected the
wallet prompt), no deposit call is submitted and the function aborts. -/
theorem escrow_C7_witness :
    (depositNFT (Except.error "User rejected the request") (Except.ok ())
        (Except.ok 7)).2.contains ChainEvent.depositSubmitted = false ∧
    (depositNFT (Except.error "User rejected the request") (Except.ok ())
        (Except.ok 7)).1.isOk = false := by
  have h := escrow_C7_approve_before_deposit (Except.error "User rejected the request")
    (Except.ok ()) (Except.ok 7)
  exact h.2 (Or.inl (by decide))

/-- First escrow of a two-escrow conversation (id 5). -/
def conversationEscrowA : Escrow :=
  { id := 5, seller := "0xSeller", buyer := "0xBuyer", nftContract := "0xNFT",
    tokenId := 1, price := 10, deadline := 1000, state := EscrowState.ACTIVE,
    createdAt := 1, disputeDeadline := 0, ipfsMetadata := "",
    sellerAgreed := false, buyerAgreed := false, xmtpConversationId := "conv-1" }

/-- Second escrow of the same conversation, appended later (id 9). -/
def conversationEscrowB : Escrow :=
  { id := 9, seller := "0xSeller", buyer := "0xBuyer", nftContract := "0xNFT",
    tokenId := 2, price := 20, deadline := 2000, state := EscrowState.CREATED,
    createdAt := 2, disputeDeadline := 0, ipfsMetadata := "",
    sellerAgreed := false, buyerAgreed := false, xmtpConversationId := "conv-1" }

/-- C4: at the failing input (a conversation holding escrows with ids 5
and 9, querying the number of escrow 9) the escrow-number function of
escrowMessages returns the constant first position, while the 1-based
position in the ascending-id sorted list (the numbering the modal
renders) is two; the modal numbering of the earlier escrow is unchanged
by the append. -/
theorem escrow_C4_number_stub :
    getConversationEscrowNumber "conv-1" 9 = "#1" ∧
    escrowDisplayNumber [conversationEscrowA, conversationEscrowB] 9 = 2 ∧
    escrowDisplayNumber [conversationEscrowA] 5 = 1 ∧
    escrowDisplayNumber [conversationEscrowA, conversationEscrowB] 5 = 1 := by
  refine ⟨rfl, by decide, by decide, by decide⟩

/-- A disputed escrow whose main deadline (50) has passed at time 100 but
whose dispute deadline (200) has not. -/
def disputedEscrowCex : Escrow :=
  { id := 1, seller := "0xSeller", buyer := "0xBuyer", nftContract := "0xNFT",
    tokenId := 1, price := 10, deadline := 50, state := EscrowState.DISPUTED,
    createdAt := 0, disputeDeadline := 200, ipfsMetadata := "",
    sellerAgreed := false, buyerAgreed := false, xmtpConversationId := "" }

/-- C1 counterexample: for a disputed escrow whose main deadline has
passed but whose dispute deadline has not, the modal shows the
cancel-expired action although the section 4.1 graph does not allow it,
so the gating is not equivalent to the lawful table as claimed. -/
theorem escrow_C1_counterexample :
    canUserCancelExpired 100 disputedEscrowCex "0xbuyer" ≠
      lawfulFor disputedEscrowCex "0xbuyer" (isEscrowExpired 100 disputedEscrowCex)
        (isDisputeExpired 100 disputedEscrowCex) EscrowAction.cancelExpired := by
  decide

/-- C1 (amended): for every escrow, user and time, each of the six
client-side permission predicates agrees with the lawful table of section
4.1 amended in one point: the cancel-expired action is gated on the main
deadline alone with the state merely not CANCELLED and not COMPLETED
(the dispute deadline is never consulted, so a DISPUTED escrow offers
cancel-expired already when its main deadline passes). -/
theorem escrow_C1_permission_table (now : Nat) (escrow : Escrow) (userAddress : String) :
    canUserFundEscrow now escrow userAddress =
      lawfulForAmended escrow userAddress (isEscrowExpired now escrow)
        (isDisputeExpired now escrow) EscrowAction.fund ∧
    canUserDepositNFT now escrow userAddress =
      lawfulForAmended escrow userAddress (isEscrowExpired now escrow)
        (isDisputeExpired now escrow) EscrowAction.depositNFT ∧
    canUserCompleteEscrow now escrow userAddress =
      lawfulForAmended escrow userAddress (isEscrowExpired now escrow)
        (isDisputeExpired now escrow) EscrowAction.complete ∧
    canUserCancelEscrow now escrow userAddress =
      lawfulForAmended escrow userAddress (isEscrowExpired now escrow)
        (isDisputeExpired now escrow) EscrowAction.cancel ∧
    canUserRaiseDispute now escrow userAddress =
      lawfulForAmended escrow userAddress (isEscrowExpired now escrow)
        (isDisputeExpired now escrow) EscrowAction.raiseDispute ∧
    canUserCancelExpired now escrow userAddress =
      lawfulForAmended escrow userAddress (isEscrowExpired now escrow)
        (isDisputeExpired now escrow) EscrowAction.cancelExpired := by
  obtain ⟨i, sel, buy, nc, tid, pr, dl, st, ca, dd, im, sa, ba, xc⟩ := escrow
  cases st <;>
  · simp only [canUserFundEscrow, canUserDepositNFT, canUserCompleteEscrow,
      canUserCancelEscrow, canUserRaiseDispute, canUserCancelExpired,
      lawfulForAmended, lawfulActionAmended, lawfulAction, roleHolds,
      isEscrowExpired, isDisputeExpired]
    generalize (toLowerCase buy == toLowerCase userAddress) = A
    generalize (toLowerCase sel == toLowerCase userAddress) = B
    generalize (decide (dl < now)) = X
    generalize (decide (dd < now)) = D
    revert A B X D
    decide

/-- C2: getNextAction is total and deterministic; it yields a non-empty
string for every state, expiry and role combination; the terminal and
disputed states are answered before the expiry check; expiry is answered
before the per-state per-role guidance; and the remaining combination
(CREATED, not expired, caller neither party) yields the default
no-action string. -/
theorem escrow_C2_next_action_total (now : Nat) (escrow : Escrow) (userAddress : String) :
    getNextAction now escrow userAddress ≠ "" ∧
    getNextAction now escrow userAddress = getNextAction now escrow userAddress ∧
    (escrow.state = EscrowState.COMPLETED →
      getNextAction now escrow userAddress = "Escrow completed successfully") ∧
    (escrow.state = EscrowState.CANCELLED →
      getNextAction now escrow userAddress = "Escrow was cancelled") ∧
    (escrow.state = EscrowState.DISPUTED →
      getNextAction now escrow userAddress =
        (if isEscrowExpired now escrow then "Dispute expired - can be auto-resolved"
         else "Escrow is under dispute - awaiting resolution")) ∧
    (escrow.state ≠ EscrowState.COMPLETED → escrow.state ≠ EscrowState.CANCELLED →
      escrow.state ≠ EscrowState.DISPUTED → isEscrowExpired now escrow = true →
      getNextAction now escrow userAddress = "Escrow expired - funds can be refunded") ∧
    (escrow.state = EscrowState.CREATED → isEscrowExpired now escrow = false →
      (toLowerCase escrow.buyer == toLowerCase userAddress) = false →
      (toLowerCase escrow.seller == toLowerCase userAddress) = false →
      getNextAction now escrow userAddress = "No action required") := by
  obtain ⟨i, sel, buy, nc, tid, pr, dl, st, ca, dd, im, sa, ba, xc⟩ := escrow
  cases st <;>
  · simp only [getNextAction, isEscrowExpired]
    by_cases hA : toLowerCase buy = toLowerCase userAddress <;>
    by_cases hB : toLowerCase sel = toLowerCase userAddress <;>
    by_cases hX : dl < now <;>
    simp_all [beq_iff_eq] <;> (try split) <;>
    first
    | decide
    | omega

/-- A freshly created escrow, far from its deadline, used to witness the
default branch of getNextAction. -/
def createdEscrowW : Escrow :=
  { id := 2, seller := "0xSeller", buyer := "0xBuyer", nftContract := "0xNFT",
    tokenId := 3, price := 5, deadline := 100, state := EscrowState.CREATED,
    createdAt := 0, disputeDeadline := 0, ipfsMetadata := "",
    sellerAgreed := false, buyerAgreed := false, xmtpConversationId := "" }

/-- C2 witness: a non-party viewer of a fresh CREATED escrow gets the
default no-action guidance. -/
theorem escrow_C2_witness :
    getNextAction 0 createdEscrowW "0xNobody" = "No action required" := by
  have h := escrow_C2_next_action_total 0 createdEscrowW "0xNobody"
  exact h.2.2.2.2.2.2 rfl (by decide) (by decide) (by decide)

/-- C10: the permission predicates and getNextAction depend on the user
address and on the buyer and seller fields only through their lower-cased
forms, so changing hexadecimal letter case anywhere leaves every result
unchanged. -/
theorem escrow_C10_case_insensitive (now : Nat) (escrow : Escrow)
    (userAddress userAddress2 buyer2 seller2 : String)
    (hu : toLowerCase userAddress2 = toLowerCase userAddress)
    (hb : toLowerCase buyer2 = toLowerCase escrow.buyer)
    (hs : toLowerCase seller2 = toLowerCase escrow.seller) :
    canUserFundEscrow now { escrow with buyer := buyer2, seller := seller2 } userAddress2 =
      canUserFundEscrow now escrow userAddress ∧
    canUserDepositNFT now { escrow with buyer := buyer2, seller := seller2 } userAddress2 =
      canUserDepositNFT now escrow userAddress ∧
    canUserCompleteEscrow now { escrow with buyer := buyer2, seller := seller2 } userAddress2 =
      canUserCompleteEscrow now escrow userAddress ∧
    canUserCancelEscrow now { escrow with buyer := buyer2, seller := seller2 } userAddress2 =
      canUserCancelEscrow now escrow userAddress ∧
    canUserRaiseDispute now { escrow with buyer := buyer2, seller := seller2 } userAddress2 =
      canUserRaiseDispute now escrow userAddress ∧
    getNextAction now { escrow with buyer := buyer2, seller := seller2 } userAddress2 =
      getNextAction now escrow userAddress := by
  obtain ⟨i, sel, buy, nc, tid, pr, dl, st, ca, dd, im, sa, ba, xc⟩ := escrow
  simp only [Escrow.buyer, Escrow.seller] at hb hs
  refine ⟨?_, ?_, ?_, ?_, ?_, ?_⟩ <;>
  · simp only [canUserFundEscrow, canUserDepositNFT, canUserCompleteEscrow,
      canUserCancelEscrow, canUserRaiseDispute, getNextAction, isEscrowExpired]
    simp only [hu, hb, hs]

/-- An active escrow with mixed-case party addresses. -/
def activeEscrowW : Escrow :=
  { id := 3, seller := "0xSeLLeR", buyer := "0xBuYeR", nftContract := "0xNFT",
    tokenId := 4, price := 7, deadline := 1000, state := EscrowState.ACTIVE,
    createdAt := 0, disputeDeadline := 0, ipfsMetadata := "",
    sellerAgreed := false, buyerAgreed := false, xmtpConversationId := "" }

/-- C10 witness: re-casing the user address and both party fields leaves
the complete-escrow permission and the next-action guidance unchanged on
a concrete active escrow. -/
theorem escrow_C10_witness :
    canUserCompleteEscrow 0 { activeEscrowW with buyer := "0xBUYER", seller := "0xseller" }
        "0xbUyEr" =
      canUserCompleteEscrow 0 activeEscrowW "0xBuyer" ∧
    getNextAction 0 { activeEscrowW with buyer := "0xBUYER", seller := "0xseller" }
        "0xbUyEr" =
      getNextAction 0 activeEscrowW "0xBuyer" := by
  have h := escrow_C10_case_insensitive 0 activeEscrowW "0xBuyer" "0xbUyEr" "0xBUYER"
    "0xseller" (by decide) (by decide) (by decide)
  exact ⟨h.2.2.1, h.2.2.2.2.2⟩

/-- The polling loop performs at most `fuel` reads. -/
theorem waitGo_reads_le (reads : Nat → ReadOutcome) (st : EscrowState) :
    ∀ fuel attempt, (waitForEscrowStateChangeGo reads st attempt fuel).2 ≤ fuel := by
  intro fuel
  induction fuel with
  | zero => intro attempt; simp [waitForEscrowStateChangeGo]
  | succ n ih =>
    intro attempt
    unfold waitForEscrowStateChangeGo
    split
    · simp
    · simpa using Nat.succ_le_succ (ih (attempt + 1))

/-- The polling loop returns true exactly when some attempt within the
budget observes the expected state. -/
theorem waitGo_true_iff (reads : Nat → ReadOutcome) (st : EscrowState) :
    ∀ fuel attempt,
      (waitForEscrowStateChangeGo reads st attempt fuel).1 = true ↔
        ∃ j, j < fuel ∧ observedExpected reads st (attempt + j) = true := by
  intro fuel
  induction fuel with
  | zero =>
    intro attempt
    simp [waitForEscrowStateChangeGo]
  | succ n ih =>
    intro attempt
    unfold waitForEscrowStateChangeGo
    split
    · next hobs =>
      simp only [true_iff]
      exact ⟨0, Nat.succ_pos n, by simpa using hobs⟩
    · next hobs =>
      simp only []
      constructor
      · intro h
        obtain ⟨j, hj, hP⟩ := (ih (attempt + 1)).mp h
        exact ⟨j + 1, by omega, by simpa [Nat.add_assoc, Nat.add_comm 1 j] using hP⟩
      · rintro ⟨j, hj, hP⟩
        cases j with
        | zero => simp at hP; exact absurd hP (by simpa using hobs)
        | succ k =>
          exact (ih (attempt + 1)).mpr
            ⟨k, by omega, by simpa [Nat.add_assoc, Nat.add_comm 1 k] using hP⟩

/-- C6: waitForEscrowStateChange performs at most maxAttempts reads,
returns true exactly when some read within the budget observes the
expected state (so it returns true as soon as one does), and returns
false on exhaustion for every input, erroring reads included; and the
modal coordinator waitAndRefresh never throws, turning exhaustion into
the state-may-still-be-updating warning toast instead. -/
theorem escrow_C6_bounded_polling (reads : Nat → ReadOutcome) (expectedState : EscrowState)
    (maxAttempts delayMs : Nat) (receiptOk : Bool) :
    (waitForEscrowStateChange reads expectedState maxAttempts delayMs).2 ≤ maxAttempts ∧
    ((waitForEscrowStateChange reads expectedState maxAttempts delayMs).1 = true ↔
      ∃ i, i < maxAttempts ∧ observedExpected reads expectedState i = true) ∧
    (waitAndRefresh receiptOk reads (some expectedState)).isOk = true ∧
    (receiptOk = true →
      (waitForEscrowStateChange reads expectedState 15 3000).1 = false →
      waitAndRefresh receiptOk reads (some expectedState) =
        Except.ok
          (some "Transaction completed but state may still be updating. Please refresh manually.")) := by
  refine ⟨waitGo_reads_le reads expectedState maxAttempts 0, ?_, ?_, ?_⟩
  · simpa using waitGo_true_iff reads expectedState maxAttempts 0
  · cases receiptOk
    · rfl
    · by_cases hpoll : (waitForEscrowStateChange reads expectedState 15 3000).1 = true <;>
        simp [waitAndRefresh, hpoll, Except.isOk, Except.toBool]
  · intro h1 h2
    subst h1
    simp [waitAndRefresh, h2]

/-- A read sequence whose every attempt fails at the transport layer. -/
def rpcDownReads : Nat → ReadOutcome :=
  fun _ => ReadOutcome.transportFailure "rpc unreachable"

/-- C6 witness: with every read failing, a budget of three performs at
most three reads, and the coordinator surfaces the warning toast. -/
theorem escrow_C6_witness :
    (waitForEscrowStateChange rpcDownReads EscrowState.FUNDED 3 2000).2 ≤ 3 ∧
    waitAndRefresh true rpcDownReads (some EscrowState.FUNDED) =
      Except.ok
        (some "Transaction completed but state may still be updating. Please refresh manually.") := by
  have h := escrow_C6_bounded_polling rpcDownReads EscrowState.FUNDED 3 2000 true
  exact ⟨h.1, h.2.2.2 rfl (by decide)⟩

/-- Folding digits from an arbitrary accumulator. -/
theorem digitsToNat_foldl (cs : List Char) :
    ∀ a : Nat,
      cs.foldl (fun acc c => 10 * acc + digitVal c) a = a * 10 ^ cs.length + digitsToNat cs := by
  induction cs with
  | nil => intro a; simp [digitsToNat]
  | cons c t ih =>
    intro a
    have h1 := ih (10 * a + digitVal c)
    have h2 := ih (10 * 0 + digitVal c)
    simp only [List.foldl_cons, digitsToNat] at h1 h2 ⊢
    rw [h1, h2]
    simp [List.length_cons, pow_succ]
    ring

/-- Digit strings concatenate positionally. -/
theorem digitsToNat_append (xs ys : List Char) :
    digitsToNat (xs ++ ys) = digitsToNat xs * 10 ^ ys.length + digitsToNat ys := by
  unfold digitsToNat
  rw [List.foldl_append]
  exact digitsToNat_foldl ys (List.foldl (fun acc c => 10 * acc + digitVal c) 0 xs)

/-- A run of zero digits has value zero. -/
theorem digitsToNat_replicate_zero (k : Nat) :
    digitsToNat (List.replicate k '0') = 0 := by
  induction k with
  | zero => rfl
  | succ n ih =>
    have h := digitsToNat_foldl (List.replicate n '0') (10 * 0 + digitVal '0')
    simp only [List.replicate_succ, digitsToNat, List.foldl_cons] at ih ⊢
    rw [h]
    simpa [digitVal] using ih

/-- Every digit list is its trailing-zero-trimmed form followed by a run
of zero digits. -/
theorem stripTrailingZeroDigits_decomp (cs : List Char) :
    ∃ k, cs = stripTrailingZeroDigits cs ++ List.replicate k '0' := by
  refine ⟨(cs.reverse.takeWhile (fun c => c == '0')).length, ?_⟩
  have hsplit := List.takeWhile_append_dropWhile (p := fun c => c == '0') (l := cs.reverse)
  have htake : cs.reverse.takeWhile (fun c => c == '0') =
      List.replicate (cs.reverse.takeWhile (fun c => c == '0')).length '0' := by
    apply List.eq_replicate_of_mem
    intro b hb
    have := List.mem_takeWhile_imp hb
    simpa [beq_iff_eq] using this
  calc cs = cs.reverse.reverse := by rw [List.reverse_reverse]
    _ = (cs.reverse.takeWhile (fun c => c == '0') ++
          cs.reverse.dropWhile (fun c => c == '0')).reverse := by rw [hsplit]
    _ = stripTrailingZeroDigits cs ++ List.replicate
          (cs.reverse.takeWhile (fun c => c == '0')).length '0' := by
        rw [List.reverse_append, stripTrailingZeroDigits]
        rw [htake, List.reverse_replicate]
        simp

/-- Trimming trailing zeros never lengthens a digit list. -/
theorem stripTrailingZeroDigits_length_le (cs : List Char) :
    (stripTrailingZeroDigits cs).length ≤ cs.length := by
  obtain ⟨k, hk⟩ := stripTrailingZeroDigits_decomp cs
  have h : cs.length = (stripTrailingZeroDigits cs).length + k := by
    conv_lhs => rw [hk]
    simp
  omega

/-- Scaling to 18 decimals is invariant under trailing-zero trimming. -/
theorem digits_scale_strip (f : List Char) (hf : f.length ≤ 18) :
    digitsToNat (stripTrailingZeroDigits f) * 10 ^ (18 - (stripTrailingZeroDigits f).length) =
      digitsToNat f * 10 ^ (18 - f.length) := by
  obtain ⟨k, hk⟩ := stripTrailingZeroDigits_decomp f
  set t := stripTrailingZeroDigits f with ht
  have hlen : f.length = t.length + k := by rw [hk]; simp
  have hval : digitsToNat f = digitsToNat t * 10 ^ k := by
    rw [hk, digitsToNat_append, digitsToNat_replicate_zero, List.length_replicate]
    omega
  rw [hval]
  rw [Nat.mul_assoc, ← pow_add]
  congr 2
  omega

/-- A list of decimal digits contains no dot. -/
theorem no_dot_of_all_digit (l : List Char) (h : l.all Char.isDigit = true) : '.' ∉ l := by
  intro hmem
  have := (List.all_eq_true.mp h) '.' hmem
  simp [Char.isDigit] at this

/-- A list of decimal digits does not start with a minus sign. -/
theorem head_not_minus_of_digit (c : Char) (h : c.isDigit = true) : (c == '-') = false := by
  cases hb : c == '-'
  · rfl
  · exfalso
    have : c = '-' := by simpa [beq_iff_eq] using hb
    subst this
    simp [Char.isDigit] at h

/-- splitDot of a dot-free list is the singleton of that list. -/
theorem splitDot_no_dot (l : List Char) (h : '.' ∉ l) : splitDot l = [l] := by
  induction l with
  | nil => rfl
  | cons c t ih =>
    have hc : (c == '.') = false := by
      cases hb : c == '.'
      · rfl
      · exact absurd (by simpa [beq_iff_eq] using hb : c = '.') (by
          intro hcc
          exact h (hcc ▸ List.mem_cons_self c t))
    have ht : '.' ∉ t := fun hm => h (List.mem_cons_of_mem c hm)
    simp [splitDot, hc, ih ht]

/-- splitDot splits at the first dot when the head part is dot-free. -/
theorem splitDot_append_dot (i f : List Char) (hi : '.' ∉ i) :
    splitDot (i ++ '.' :: f) = i :: splitDot f := by
  induction i with
  | nil => simp [splitDot]
  | cons c t ih =>
    have hc : (c == '.') = false := by
      cases hb : c == '.'
      · rfl
      · exact absurd (by simpa [beq_iff_eq] using hb : c = '.') (by
          intro hcc
          exact hi (hcc ▸ List.mem_cons_self c t))
    have ht : '.' ∉ t := fun hm => hi (List.mem_cons_of_mem c hm)
    have hrec := ih ht
    simp only [List.cons_append, splitDot, hc, List.append_eq]
    rw [hrec]
    simp

/-- C8: createEscrow submits the duration converted from hours to seconds
and the price converted by parsePrice; parsePrice maps every well-formed
decimal digit string to its exact 18-decimal base-unit integer (stated
both without and with a fractional part); in particular 1.5 parses to
1500000000000000000 and formatPrice maps it back to the string 1.5. -/
theorem escrow_C8_unit_conversions :
    (∀ params args, createEscrow params = Except.ok args →
      args.duration = params.durationHours * 3600 ∧
      parsePrice params.priceEth = some args.price) ∧
    (∀ i : List Char, i.all Char.isDigit = true →
      parseEther (String.mk i) = some ((digitsToNat i * 10 ^ 18 : Nat) : Int)) ∧
    (∀ i f : List Char, i.all Char.isDigit = true → f.all Char.isDigit = true →
      f.length ≤ 18 →
      parseEther (String.mk (i ++ '.' :: f)) =
        some ((digitsToNat i * 10 ^ 18 + digitsToNat f * 10 ^ (18 - f.length) : Nat) : Int)) ∧
    parsePrice "1.5" = some 1500000000000000000 ∧
    formatPrice 1500000000000000000 = "1.5" := by
  refine ⟨?_, ?_, ?_, by decide, by decide⟩
  · intro params args h
    simp only [createEscrow] at h
    cases hp : parsePrice params.priceEth <;> rw [hp] at h
    · simp at h
    · injection h with h2
      subst h2
      exact ⟨rfl, rfl⟩
  · intro i hi
    have hnodot := no_dot_of_all_digit i hi
    cases i with
    | nil => rfl
    | cons c t =>
      have hc : (c == '-') = false :=
        head_not_minus_of_digit c (List.all_eq_true.mp hi c (List.mem_cons_self c t))
      simp [parseEther, hc, splitDot_no_dot _ hnodot, hi, intSign]
  · intro i f hi hf hlen
    have hnodot_i := no_dot_of_all_digit i hi
    have hnodot_f := no_dot_of_all_digit f hf
    have hsplit2 : splitDot (i ++ '.' :: f) = [i, f] := by
      rw [splitDot_append_dot i f hnodot_i, splitDot_no_dot f hnodot_f]
    have hstriplen : (stripTrailingZeroDigits f).length ≤ 18 :=
      le_trans (stripTrailingZeroDigits_length_le f) hlen
    have hscale := digits_scale_strip f hlen
    cases i with
    | nil =>
      have hc : (('.' : Char) == '-') = false := by decide
      simp only [List.nil_append] at hsplit2 ⊢
      simp [parseEther, hc, hsplit2, hf, hstriplen, intSign, hscale]
    | cons c t =>
      have hc : (c == '-') = false :=
        head_not_minus_of_digit c (List.all_eq_true.mp hi c (List.mem_cons_self c t))
      have hsplit3 : splitDot (c :: (t ++ '.' :: f)) = [c :: t, f] := by
        simpa using hsplit2
      simp [parseEther, hc, hsplit3, hi, hf, hstriplen, intSign, hscale]

/-- C8 witness: the decimal characterization applied to the digits of 1.5
yields exactly the scenario value. -/
theorem escrow_C8_witness :
    parseEther (String.mk (['1'] ++ '.' :: ['5'])) =
      some ((digitsToNat ['1'] * 10 ^ 18 + digitsToNat ['5'] * 10 ^ (18 - 1) : Nat) : Int) ∧
    createEscrow
        { seller := "0xS", buyer := "0xB", nftContract := "0xN", tokenId := 1,
          priceEth := "1.5", durationHours := 24, conversationId := "c",
          ipfsMetadata := none } =
      Except.ok
        { seller := "0xS", buyer := "0xB", nftContract := "0xN", tokenId := 1,
          price := 1500000000000000000, duration := 86400,
          xmtpConversationId := conversationIdToBytes32 "c", ipfsMetadata := "" } := by
  constructor
  · exact escrow_C8_unit_conversions.2.2.1 ['1'] ['5'] (by decide) (by decide) (by decide)
  · rfl

/-- Every Lean char is a Unicode scalar value below 0x110000. -/
theorem char_toNat_lt (c : Char) : c.toNat < 0x110000 := by
  have h := c.valid
  rcases h with h | ⟨h1, h2⟩
  · exact Nat.lt_trans h (by norm_num)
  · exact h2

/-- Chars with equal code points are equal. -/
theorem char_eq_of_toNat_eq (c1 c2 : Char) (h : c1.toNat = c2.toNat) : c1 = c2 := by
  apply Char.ext
  apply UInt32.ext
  exact h

/-- UTF-8 encodings are never empty. -/
theorem utf8EncodeCodepoint_ne_nil (n : Nat) : utf8EncodeCodepoint n ≠ [] := by
  simp only [utf8EncodeCodepoint]
  split_ifs <;> simp

/-- The UTF-8 encoding of a scalar value determines the value and is
independent of what follows it in the byte stream. -/
theorem utf8EncodeCodepoint_append_inj (m n : Nat) (hm : m < 0x110000) (hn : n < 0x110000)
    (r1 r2 : List Nat)
    (h : utf8EncodeCodepoint m ++ r1 = utf8EncodeCodepoint n ++ r2) :
    m = n ∧ r1 = r2 := by
  simp only [utf8EncodeCodepoint] at h
  split_ifs at h <;>
    simp only [List.cons_append, List.nil_append, List.cons.injEq] at h <;>
    refine ⟨by omega, ?_⟩ <;> first | tauto | (exfalso; omega)

/-- The UTF-8 encoding of a char list is injective. -/
theorem charsUtf8_inj (l1 : List Char) :
    ∀ l2 : List Char, charsUtf8 l1 = charsUtf8 l2 → l1 = l2 := by
  induction l1 with
  | nil =>
    intro l2 h
    cases l2 with
    | nil => rfl
    | cons d u =>
      exfalso
      simp only [charsUtf8, List.cons_bind] at h
      exact utf8EncodeCodepoint_ne_nil d.toNat (List.append_eq_nil.mp h.symm).1
  | cons c t ih =>
    intro l2 h
    cases l2 with
    | nil =>
      exfalso
      simp only [charsUtf8, List.cons_bind] at h
      exact utf8EncodeCodepoint_ne_nil c.toNat (List.append_eq_nil.mp h).1
    | cons d u =>
      simp only [charsUtf8, List.cons_bind] at h
      obtain ⟨heq, hrest⟩ := utf8EncodeCodepoint_append_inj c.toNat d.toNat
        (char_toNat_lt c) (char_toNat_lt d) _ _ h
      rw [char_eq_of_toNat_eq c d heq, ih u hrest]

/-- UTF-8 bytes are bytes. -/
theorem utf8EncodeCodepoint_lt_256 (n : Nat) (hn : n < 0x110000) :
    ∀ b ∈ utf8EncodeCodepoint n, b < 256 := by
  intro b hb
  by_cases h1 : n < 0x80
  · simp [utf8EncodeCodepoint, h1] at hb
    omega
  · by_cases h2 : n < 0x800
    · simp [utf8EncodeCodepoint, h1, h2] at hb
      rcases hb with rfl | rfl <;> omega
    · by_cases h3 : n < 0x10000
      · simp [utf8EncodeCodepoint, h1, h2, h3] at hb
        rcases hb with rfl | rfl | rfl <;> omega
      · simp [utf8EncodeCodepoint, h1, h2, h3] at hb
        rcases hb with rfl | rfl | rfl | rfl <;> omega

/-- All bytes of an encoded char list are below 256. -/
theorem charsUtf8_lt_256 (l : List Char) : ∀ b ∈ charsUtf8 l, b < 256 := by
  intro b hb
  unfold charsUtf8 at hb
  rw [List.mem_bind] at hb
  obtain ⟨c, _, hbc⟩ := hb
  exact utf8EncodeCodepoint_lt_256 c.toNat (char_toNat_lt c) b hbc

/-- The padded buffer also only holds bytes below 256. -/
theorem padTruncate32_lt_256 (bs : List Nat) (h : ∀ b ∈ bs, b < 256) :
    ∀ b ∈ padTruncate32 bs, b < 256 := by
  intro b hb
  unfold padTruncate32 at hb
  rcases List.mem_append.mp hb with h1 | h2
  · exact h b (List.mem_of_mem_take h1)
  · have := List.eq_of_mem_replicate h2
    omega

/-- Lower-case hex digits are injective below 16. -/
theorem hexDigit_inj : ∀ a, a < 16 → ∀ b, b < 16 → hexDigit a = hexDigit b → a = b := by
  decide

/-- Rendering a byte list in two-digit hex blocks is injective. -/
theorem bytesToHex_inj (bs1 : List Nat) :
    ∀ bs2 : List Nat, (∀ b ∈ bs1, b < 256) → (∀ b ∈ bs2, b < 256) →
      bs1.bind byteToHex = bs2.bind byteToHex → bs1 = bs2 := by
  induction bs1 with
  | nil =>
    intro bs2 _ _ h
    cases bs2 with
    | nil => rfl
    | cons d u => simp [byteToHex, List.cons_bind] at h
  | cons b t ih =>
    intro bs2 hb1 hb2 h
    cases bs2 with
    | nil => simp [byteToHex, List.cons_bind] at h
    | cons d u =>
      simp only [List.cons_bind, byteToHex, List.cons_append, List.nil_append,
        List.cons.injEq] at h
      obtain ⟨e1, e2, hrest⟩ := h
      have hb : b < 256 := hb1 b (List.mem_cons_self b t)
      have hd : d < 256 := hb2 d (List.mem_cons_self d u)
      have hbd : b = d := by
        have q1 : b / 16 = d / 16 := hexDigit_inj _ (by omega) _ (by omega) e1
        have q2 : b % 16 = d % 16 := hexDigit_inj _ (by omega) _ (by omega) e2
        omega
      subst hbd
      rw [ih u (fun x hx => hb1 x (List.mem_cons_of_mem b hx))
        (fun x hx => hb2 x (List.mem_cons_of_mem b hx)) hrest]

/-- Dropping leading zeros past a zero run. -/
theorem dropWhile_zeros_replicate (k : Nat) (l : List Nat) :
    List.dropWhile (fun b => b == 0) (List.replicate k 0 ++ l) =
      List.dropWhile (fun b => b == 0) l := by
  induction k with
  | zero => rfl
  | succ n ih => simp [List.replicate_succ, List.dropWhile_cons, ih]

/-- Appending a zero run is undone by trailing-zero stripping, provided
the original list does not itself end in a zero byte. -/
theorem stripTrailingZeros_append_replicate (l : List Nat) (k : Nat)
    (h : l.getLast? ≠ some 0) :
    stripTrailingZeros (l ++ List.replicate k 0) = l := by
  unfold stripTrailingZeros
  rw [List.reverse_append, List.reverse_replicate, dropWhile_zeros_replicate]
  have hdrop : List.dropWhile (fun b => b == 0) l.reverse = l.reverse := by
    cases hrev : l.reverse with
    | nil => rfl
    | cons x xs =>
      have hx : x ≠ 0 := by
        have hh : l.reverse.head? = some x := by rw [hrev]; rfl
        rw [List.head?_reverse] at hh
        intro hx0
        rw [hx0] at hh
        exact h hh
      simp [List.dropWhile_cons, hx]
  rw [hdrop, List.reverse_reverse]

/-- The original bytes of a short, non-zero-terminated encoding are
recoverable from the padded 32-byte buffer. -/
theorem padTruncate32_recover (bs : List Nat) (hlen : bs.length ≤ 32)
    (hlast : bs.getLast? ≠ some 0) :
    stripTrailingZeros (padTruncate32 bs) = bs := by
  unfold padTruncate32
  rw [List.take_of_length_le hlen]
  exact stripTrailingZeros_append_replicate bs _ hlast

/-- C3 counterexample: two distinct identifiers, both UTF-8-encoding to
at most 32 bytes, with identical encodings — one is the other plus a
trailing NUL character, which the zero-padding erases.  Injectivity over
all identifiers with at most 32 encoded bytes therefore fails. -/
theorem escrow_C3_counterexample :
    conversationIdToBytes32 "a" = conversationIdToBytes32 "a\x00" ∧
    "a" ≠ "a\x00" ∧
    (utf8Bytes "a").length ≤ 32 ∧ (utf8Bytes "a\x00").length ≤ 32 := by
  refine ⟨by decide, by decide, by decide, by decide⟩

/-- C3 (amended): conversationIdToBytes32 is injective on identifiers
whose UTF-8 encoding is at most 32 bytes and does not end in a zero byte
(equivalently, without trailing NUL characters); and any two identifiers
with more than 32 encoded bytes sharing the same first 32 bytes collide,
the documented truncation loss. -/
theorem escrow_C3_encoding :
    (∀ s1 s2 : String,
      (utf8Bytes s1).length ≤ 32 → (utf8Bytes s2).length ≤ 32 →
      (utf8Bytes s1).getLast? ≠ some 0 → (utf8Bytes s2).getLast? ≠ some 0 →
      conversationIdToBytes32 s1 = conversationIdToBytes32 s2 → s1 = s2) ∧
    (∀ s1 s2 : String,
      32 < (utf8Bytes s1).length → 32 < (utf8Bytes s2).length →
      (utf8Bytes s1).take 32 = (utf8Bytes s2).take 32 →
      conversationIdToBytes32 s1 = conversationIdToBytes32 s2) := by
  constructor
  · intro s1 s2 hl1 hl2 hz1 hz2 heq
    unfold conversationIdToBytes32 at heq
    injection heq with hdata
    have hbind : (padTruncate32 (utf8Bytes s1)).bind byteToHex =
        (padTruncate32 (utf8Bytes s2)).bind byteToHex := by
      simpa using hdata
    have hpad : padTruncate32 (utf8Bytes s1) = padTruncate32 (utf8Bytes s2) :=
      bytesToHex_inj _ _
        (padTruncate32_lt_256 _ (charsUtf8_lt_256 _))
        (padTruncate32_lt_256 _ (charsUtf8_lt_256 _)) hbind
    have hbytes : utf8Bytes s1 = utf8Bytes s2 := by
      rw [← padTruncate32_recover (utf8Bytes s1) hl1 hz1,
          ← padTruncate32_recover (utf8Bytes s2) hl2 hz2, hpad]
    have hdata2 : s1.data = s2.data := charsUtf8_inj s1.data s2.data hbytes
    obtain ⟨d1⟩ := s1
    obtain ⟨d2⟩ := s2
    exact congrArg String.mk hdata2
  · intro s1 s2 hg1 hg2 htake
    have hpad : padTruncate32 (utf8Bytes s1) = padTruncate32 (utf8Bytes s2) := by
      unfold padTruncate32
      rw [htake, Nat.sub_eq_zero_of_le (by omega), Nat.sub_eq_zero_of_le (by omega)]
    unfold conversationIdToBytes32
    exact congrArg (fun bs => String.mk ('0' :: 'x' :: bs.bind byteToHex)) hpad

/-- C3 witness: two distinct 33-byte identifiers sharing their first 32
bytes collide, and the injective case applied at a concrete short
identifier holds. -/
theorem escrow_C3_witness :
    conversationIdToBytes32 "aaaaaaaaaaaaaaaaaaaaaaaaaaaaaaaaa" =
      conversationIdToBytes32 "aaaaaaaaaaaaaaaaaaaaaaaaaaaaaaaab" ∧
    "xmtp-conversation" = "xmtp-conversation" := by
  constructor
  · exact escrow_C3_encoding.2 "aaaaaaaaaaaaaaaaaaaaaaaaaaaaaaaaa"
      "aaaaaaaaaaaaaaaaaaaaaaaaaaaaaaaab" (by decide) (by decide) (by decide)
  · exact escrow_C3_encoding.1 "xmtp-conversation" "xmtp-conversation"
      (by decide) (by decide) (by decide) (by decide) rfl
